import Mathlib

/-!
Shallow embedding of the studyConnect meeting backend
(src/routes/meetings.ts, src/validation/meeting.ts, src/middlewares/validate.ts,
src/calandrie.ts, src/services/recommendations.ts, prisma migration).

Times are epoch milliseconds as `Int` (JS `Date` comparisons).  The database
is the pair of the `Meeting` and `MeetingAttendee` tables.  Calendar and
AI collaborators are modelled by an explicit outcome parameter standing for
what the awaited external call did (returned a value or threw).
-/

namespace StudyConnect

/-- A row of the `Meeting` table (prisma migration `CreateTable "Meeting"`). -/
structure Meeting where
  id : String
  title : String
  description : Option String
  subject : Option String
  level : Option String
  specialization : Option String
  startTime : Int
  endTime : Int
  location : Option String
  onlineUrl : Option String
  createdById : String
  googleEventId : Option String
deriving DecidableEq, Repr

/-- A row of the `MeetingAttendee` table. -/
structure Attendee where
  id : String
  meetingId : String
  userId : String
  status : String
deriving DecidableEq, Repr

/-- The database state: the two tables the meeting routes touch. -/
structure DB where
  meetings : List Meeting
  attendees : List Attendee
deriving DecidableEq, Repr

/-- The authenticated caller (`req.user`): an id and a role. -/
structure Actor where
  id : String
  role : String
deriving DecidableEq, Repr

/-- `prisma.meeting.findUnique({ where: { id } })`. -/
def findMeeting (db : DB) (id : String) : Option Meeting :=
  db.meetings.find? (fun m => m.id = id)

/-- Number of attendee rows for a (meetingId, userId) pair; the migration
declares `MeetingAttendee_meetingId_userId_key` UNIQUE on this pair. -/
def countPair (db : DB) (mid uid : String) : Nat :=
  (db.attendees.filter (fun a => a.meetingId = mid && a.userId = uid)).length

/-- The owner-or-admin guard used by PATCH and DELETE:
`meeting.createdById === req.user?.id || req.user?.role === 'admin'`. -/
def isOwnerOrAdmin (u : Actor) (m : Meeting) : Bool :=
  m.createdById = u.id || u.role = "admin"

/-! ## requireAuth (src/routes/meetings.ts lines 16-27)

The header and the ADMIN_TOKEN environment variable are sequences of
characters; `startsWith` is `List.isPrefixOf` and `slice(7)` is `drop 7`.
JS truthiness of `process.env.ADMIN_TOKEN` makes an empty-string token
behave as unset. -/

/-- The seven characters of the literal string Bearer followed by a space. -/
def bearerPre : List Char := ['B', 'e', 'a', 'r', 'e', 'r', ' ']

/-- `requireAuth`: dev bearer-admin token check, else cookie session.
Returns the acting user or the 401 status. -/
def requireAuth (adminToken : Option (List Char)) (authHeader : Option (List Char))
    (sessionUser : Option Actor) : Except Nat Actor :=
  let adminHit : Bool :=
    match adminToken, authHeader with
    | some t, some a =>
        !t.isEmpty && bearerPre.isPrefixOf a && decide (a.drop 7 = t)
    | _, _ => false
  if adminHit then Except.ok { id := "admin", role := "admin" }
  else
    match sessionUser with
    | none => Except.error 401
    | some u => Except.ok u

/-! ## LIST (src/routes/meetings.ts lines 31-65) -/

/-- `frontMatches pat hay`: `pat` is an initial segment of `hay`. -/
def frontMatches : List Char → List Char → Bool
  | [], _ => true
  | _ :: _, [] => false
  | p :: ps, h :: hs => p = h && frontMatches ps hs

/-- `pat` occurs contiguously somewhere in `hay`. -/
def occursIn (pat : List Char) : List Char → Bool
  | [] => pat.isEmpty
  | h :: t => frontMatches pat (h :: t) || occursIn pat t

/-- Case-insensitive substring containment, as prisma
`{ contains: pat, mode: 'insensitive' }`. -/
def lcontains (hay pat : String) : Bool :=
  occursIn (pat.toLower.toList) (hay.toLower.toList)

/-- The query parameters of `GET /`: subject, level, specialization, q and
the start-time window (`fro`/`upto` stand for `from`/`to`, already parsed). -/
structure ListFilters where
  subject : Option String
  level : Option String
  specialization : Option String
  q : Option String
  fro : Option Int
  upto : Option Int
deriving Repr

/-- The `where` object built by the LIST route, applied to one meeting.
`where.endTime = { gt: now }` is unconditional. -/
def matchesWhere (now : Int) (f : ListFilters) (m : Meeting) : Bool :=
  (now < m.endTime : Bool)
  && (match f.subject with
      | some s => lcontains (m.subject.getD "") s
      | none => true)
  && (match f.level with
      | some l => m.level = some l
      | none => true)
  && (match f.specialization with
      | some s => m.specialization = some s
      | none => true)
  && (match f.fro with
      | some t => t ≤ m.startTime
      | none => true)
  && (match f.upto with
      | some t => m.startTime ≤ t
      | none => true)
  && (match f.q with
      | some q =>
          lcontains m.title q || lcontains (m.description.getD "") q
            || lcontains (m.subject.getD "") q
      | none => true)

/-- Ascending start-time order used by `orderBy: { startTime: 'asc' }`. -/
def startLE (a b : Meeting) : Prop := a.startTime ≤ b.startTime

instance : DecidableRel startLE :=
  fun a b => inferInstanceAs (Decidable (a.startTime ≤ b.startTime))

instance : IsTotal Meeting startLE := ⟨fun a b => le_total a.startTime b.startTime⟩

instance : IsTrans Meeting startLE := ⟨fun _ _ _ h1 h2 => le_trans h1 h2⟩

/-- `GET /`: findMany with the filter object, ordered by ascending startTime. -/
def listMeetings (now : Int) (f : ListFilters) (db : DB) : List Meeting :=
  List.insertionSort startLE (db.meetings.filter (matchesWhere now f))

/-! ## Calendar adapter (src/calandrie.ts)

An external calendar call is modelled by its awaited outcome: `Except CalErr`
where `CalErr` carries the provider error code (`e?.code`).  `Unit`-valued
success for update/delete, `Option String` (the event id, possibly null)
for insert. -/

/-- A thrown provider error, tagged with its optional numeric code. -/
structure CalErr where
  code : Option Nat
deriving DecidableEq, Repr

/-- `deleteGoogleEvent`: delete by exact event id; a 404 or 410 from the
provider is swallowed (already gone), everything else rethrows.
`attempt` is the awaited outcome of `calendar.events.delete`. -/
def deleteGoogleEvent (attempt : Except CalErr Unit) : Except CalErr Unit :=
  match attempt with
  | Except.ok _ => Except.ok ()
  | Except.error e =>
      if e.code = some 404 || e.code = some 410 then Except.ok ()
      else Except.error e

/-- `deleteGoogleEventWithFallback`: if the creator has no refresh token,
return immediately; else delete by id when `googleEventId` is present,
otherwise delete by query; every exception is swallowed on purpose
(the source comment: calendar cleanup must not block DB deletion). -/
def deleteGoogleEventWithFallback (hasRefreshToken : Bool)
    (googleEventId : Option String) (deleteByIdAttempt : Except CalErr Unit)
    (deleteByQueryAttempt : Except CalErr Unit) : Except CalErr Unit :=
  if !hasRefreshToken then Except.ok ()
  else
    let inner : Except CalErr Unit :=
      match googleEventId with
      | some _ => deleteGoogleEvent deleteByIdAttempt
      | none => deleteByQueryAttempt
    match inner with
    | Except.ok _ => Except.ok ()
    | Except.error _ => Except.ok ()

/-! ## CREATE (src/routes/meetings.ts lines 68-127) -/

/-- The body of `POST /` after `validate(CreateMeetingSchema)`:
title nonempty, start/end parsed instants with `endTime > startTime`
(the schema refinement), the rest optional-and-nullable. -/
structure CreatePayload where
  title : String
  description : Option String
  subject : Option String
  level : Option String
  specialization : Option String
  startTime : Int
  endTime : Int
  location : Option String
  onlineUrl : Option String
deriving Repr

/-- `CreateMeetingSchema`: title min-length 1 and the refinement
`new Date(endTime) > new Date(startTime)`. -/
def validCreate (p : CreatePayload) : Bool :=
  p.title ≠ "" && p.startTime < p.endTime

/-- Response of `POST /`: HTTP status and the body (`findUnique` result). -/
structure CreateResp where
  status : Nat
  body : Option Meeting
deriving Repr

/-- The row inserted by `prisma.meeting.create` in `POST /`:
the payload fields, `createdById` from the caller, no event id yet. -/
def newMeeting (genId : String) (actor : Actor) (p : CreatePayload) : Meeting :=
  { id := genId, title := p.title, description := p.description
    subject := p.subject, level := p.level, specialization := p.specialization
    startTime := p.startTime, endTime := p.endTime, location := p.location
    onlineUrl := p.onlineUrl, createdById := actor.id, googleEventId := none }

/-- `POST /`: insert the meeting row (`genId` is the generated cuid), then
insert the creator as a `going` attendee (row id `attId`), then best-effort
calendar insert — its outcome `cal` may be a thrown error (caught, warned)
or an optional event id (persisted when present) — then respond 201 with
the re-fetched full meeting. -/
def createMeeting (genId attId : String) (actor : Actor) (p : CreatePayload)
    (cal : Except CalErr (Option String)) (db : DB) : CreateResp × DB :=
  let m : Meeting := newMeeting genId actor p
  let db1 : DB :=
    { meetings := db.meetings ++ [m]
      attendees := db.attendees ++
        [{ id := attId, meetingId := genId, userId := actor.id, status := "going" }] }
  let db2 : DB :=
    match cal with
    | Except.error _ => db1
    | Except.ok none => db1
    | Except.ok (some geid) =>
        { db1 with
            meetings := db1.meetings.map (fun x =>
              if x.id = genId then { x with googleEventId := some geid } else x) }
  (⟨201, findMeeting db2 genId⟩, db2)

/-! ## PATCH (src/routes/meetings.ts lines 130-186, src/validation/meeting.ts) -/

/-- A nullable field of the PATCH body: absent (undefined), or present with
an explicit value — including `null` (`present none`) and the empty string. -/
inductive Field (α : Type) where
  | absent : Field α
  | present : Option α → Field α
deriving DecidableEq, Repr

/-- The body of `PATCH /:id` after `validate(PatchMeetingSchema)`:
`title` is absent or a nonempty string (never null); the times are absent
or parsed instants; the rest absent, null, or a string. -/
structure PatchPayload where
  title : Option String
  description : Field String
  subject : Field String
  level : Field String
  specialization : Field String
  startTime : Option Int
  endTime : Option Int
  location : Field String
  onlineUrl : Field String
deriving Repr

/-- `PatchMeetingSchema`'s refinement: the times are compared only when
BOTH are present in the payload; otherwise the payload passes. -/
def validPatch (p : PatchPayload) : Bool :=
  (match p.title with
   | some t => t ≠ ""
   | none => true)
  && (match p.startTime, p.endTime with
      | some s, some e => s < e
      | _, _ => true)

/-- The `data` object of the PATCH update: spread each field only when it
was present in the body (`!== undefined`; truthiness for the times). -/
def applyPatch (m : Meeting) (p : PatchPayload) : Meeting :=
  { m with
    title := match p.title with | some t => t | none => m.title
    description := match p.description with
      | Field.present v => v
      | Field.absent => m.description
    subject := match p.subject with
      | Field.present v => v
      | Field.absent => m.subject
    level := match p.level with
      | Field.present v => v
      | Field.absent => m.level
    specialization := match p.specialization with
      | Field.present v => v
      | Field.absent => m.specialization
    startTime := match p.startTime with | some s => s | none => m.startTime
    endTime := match p.endTime with | some e => e | none => m.endTime
    location := match p.location with
      | Field.present v => v
      | Field.absent => m.location
    onlineUrl := match p.onlineUrl with
      | Field.present v => v
      | Field.absent => m.onlineUrl }

/-- Response of `PATCH /:id`. -/
structure PatchResp where
  status : Nat
  body : Option Meeting
deriving DecidableEq, Repr

/-- `PATCH /:id`: find; 404 when absent; 403 unless owner or admin; else
update with the spread object and respond 200 with the updated row.  The
trailing best-effort Google sync is caught-and-warned and touches no DB
state, so it does not appear in the state transition. -/
def patchMeeting (actor : Actor) (id : String) (p : PatchPayload) (db : DB) :
    PatchResp × DB :=
  match findMeeting db id with
  | none => (⟨404, none⟩, db)
  | some m =>
      if !(isOwnerOrAdmin actor m) then (⟨403, none⟩, db)
      else
        let m2 := applyPatch m p
        let db2 : DB :=
          { db with meetings := db.meetings.map (fun x => if x.id = id then m2 else x) }
        (⟨200, some m2⟩, db2)

/-! ## JOIN (src/routes/meetings.ts lines 190-215) -/

/-- The outcomes of `POST /:id/join`. -/
inductive JoinRes where
  | notFound
  | ended
  | joined (a : Attendee)
  | alreadyJoined
deriving DecidableEq, Repr

/-- HTTP status of each join outcome. -/
def JoinRes.status : JoinRes → Nat
  | JoinRes.notFound => 404
  | JoinRes.ended => 400
  | JoinRes.joined _ => 200
  | JoinRes.alreadyJoined => 200

/-- `POST /:id/join`: 404 when the meeting is absent; 400 "Meeting already
ended" when `meeting.endTime <= now`; else insert the attendee row — the
unique index on (meetingId, userId) turns a duplicate into a P2002 error,
answered as 200 `{ ok: true, note: 'Already joined' }`. -/
def joinMeeting (now : Int) (attId : String) (actor : Actor) (id : String)
    (db : DB) : JoinRes × DB :=
  match findMeeting db id with
  | none => (JoinRes.notFound, db)
  | some m =>
      if m.endTime ≤ now then (JoinRes.ended, db)
      else
        if db.attendees.any (fun a => a.meetingId = id && a.userId = actor.id) then
          (JoinRes.alreadyJoined, db)
        else
          let a : Attendee :=
            { id := attId, meetingId := id, userId := actor.id, status := "going" }
          (JoinRes.joined a, { db with attendees := db.attendees ++ [a] })

/-- `POST /:id/leave`: deleteMany of the (meetingId, userId) rows; always ok. -/
def leaveMeeting (actor : Actor) (id : String) (db : DB) : DB :=
  { db with
      attendees := db.attendees.filter (fun a =>
        !(a.meetingId = id && a.userId = actor.id)) }

/-! ## DELETE (src/routes/meetings.ts lines 238-271) -/

/-- Response of `DELETE /:id`. -/
structure DeleteResp where
  status : Nat
deriving DecidableEq, Repr

/-- `DELETE /:id`: find; 404 when absent; 403 unless owner or admin; then
best-effort calendar cleanup — `cleanup` is the awaited outcome of
`deleteGoogleEventWithFallback`, and even a thrown error is caught and
warned — then the transaction deleting every attendee row of the meeting
together with the meeting row, and 200. -/
def deleteMeeting (actor : Actor) (id : String) (cleanup : Except CalErr Unit)
    (db : DB) : DeleteResp × DB :=
  match findMeeting db id with
  | none => (⟨404⟩, db)
  | some m =>
      if !(isOwnerOrAdmin actor m) then (⟨403⟩, db)
      else
        match cleanup with
        | Except.ok _ =>
            (⟨200⟩,
             { meetings := db.meetings.filter (fun x => x.id ≠ id)
               attendees := db.attendees.filter (fun a => a.meetingId ≠ id) })
        | Except.error _ =>
            (⟨200⟩,
             { meetings := db.meetings.filter (fun x => x.id ≠ id)
               attendees := db.attendees.filter (fun a => a.meetingId ≠ id) })

/-! ## Recommendation scorer (src/services/recommendations.ts) -/

/-- The per-meeting view the scorer works with (`getAvailableMeetings`
projection: id, title, ..., attendeesCount). -/
structure RecMeeting where
  id : String
  title : String
  subject : Option String
  level : Option String
  specialization : Option String
  startTime : Int
  attendeesCount : Nat
deriving DecidableEq, Repr

/-- `getUserProfile` result, reduced to the field `getRecommendations`
branches on. -/
structure Profile where
  totalMeetingsJoined : Nat
deriving Repr

/-- One (id, score, reason) triple parsed from the collaborator's JSON. -/
structure Ranking where
  id : String
  score : Int
  reason : String
deriving DecidableEq, Repr

/-- A produced recommendation. -/
structure Recommendation where
  meeting : RecMeeting
  score : Int
  reason : String
deriving DecidableEq, Repr

/-- What the awaited Gemini call plus response handling yielded:
the call threw (or `JSON.parse` threw inside the `try`), or the response
text matched no `[... ]` segment, or a parsed ranking list. -/
inductive AiOutcome where
  | throws
  | noJsonArray
  | parsed (rankings : List Ranking)
deriving Repr

/-- Descending attendee count, the popularity sort
`(a, b) => b.attendeesCount - a.attendeesCount`. -/
def popGE (a b : RecMeeting) : Prop := b.attendeesCount ≤ a.attendeesCount

instance : DecidableRel popGE :=
  fun a b => inferInstanceAs (Decidable (b.attendeesCount ≤ a.attendeesCount))

instance : IsTotal RecMeeting popGE := ⟨fun a b => le_total b.attendeesCount a.attendeesCount⟩

instance : IsTrans RecMeeting popGE := ⟨fun _ _ _ h1 h2 => le_trans h2 h1⟩

/-- The popularity ranking: sort by descending attendee count, take 5,
fixed score 50 with the given reason. -/
def popularityTop (available : List RecMeeting) (reason : String) :
    List Recommendation :=
  ((List.insertionSort popGE available).take 5).map (fun meeting =>
    { meeting := meeting, score := 50, reason := reason })

/-- `getRecommendations`: empty without an API key, an unknown user, or an
empty candidate set; popularity ranking for a user with no history; else
delegate to the collaborator (`ai` is the classified outcome): a thrown
error falls back to popularity, a response with no JSON array yields the
empty list, and parsed rankings are mapped back through the candidate set,
dropping unknown ids. -/
def getRecommendations (apiKey : Option String) (profile : Option Profile)
    (available : List RecMeeting) (ai : AiOutcome) : List Recommendation :=
  match apiKey with
  | none => []
  | some _ =>
    match profile with
    | none => []
    | some prof =>
        if available.isEmpty then []
        else if prof.totalMeetingsJoined = 0 then
          popularityTop available "Popular session you might like"
        else
          match ai with
          | AiOutcome.throws => popularityTop available "Popular session"
          | AiOutcome.noJsonArray => []
          | AiOutcome.parsed rankings =>
              (rankings.filter (fun r => available.any (fun m => m.id = r.id))).filterMap
                (fun r =>
                  match available.find? (fun m => m.id = r.id) with
                  | some m => some { meeting := m, score := r.score, reason := r.reason }
                  | none => none)

/-! ## Concrete fixtures for the closed statements -/

/-- A meeting that has ended by time 10 (endTime 9). -/
def mEnded : Meeting :=
  { id := "m1", title := "A", description := none, subject := none,
    level := none, specialization := none, startTime := 0, endTime := 9,
    location := none, onlineUrl := none, createdById := "u1",
    googleEventId := none }

/-- A meeting still running at time 10 (endTime 20). -/
def mLive : Meeting :=
  { id := "m2", title := "B", description := none, subject := none,
    level := none, specialization := none, startTime := 5, endTime := 20,
    location := none, onlineUrl := none, createdById := "u1",
    googleEventId := none }

/-- A two-meeting database with no attendees. -/
def dbTwo : DB := { meetings := [mEnded, mLive], attendees := [] }

/-- The filterless LIST query. -/
def noFilters : ListFilters :=
  { subject := none, level := none, specialization := none, q := none,
    fro := none, upto := none }

/-- The empty PATCH payload (every field absent). -/
def emptyPatch : PatchPayload :=
  { title := none, description := Field.absent, subject := Field.absent,
    level := Field.absent, specialization := Field.absent, startTime := none,
    endTime := none, location := Field.absent, onlineUrl := Field.absent }

/-- A sample create payload. -/
def samplePayload : CreatePayload :=
  { title := "New", description := some "d", subject := some "math",
    level := none, specialization := none, startTime := 100, endTime := 200,
    location := none, onlineUrl := none }

/-- A PATCH payload exercising explicit-null, empty-string and omitted
fields at once. -/
def pOverwrite : PatchPayload :=
  { title := some "X", description := Field.present none,
    subject := Field.present (some ""), level := Field.absent,
    specialization := Field.absent, startTime := some 6, endTime := none,
    location := Field.present (some "Hall"), onlineUrl := Field.absent }

/-- A PATCH payload moving only `startTime`, past the stored `endTime`. -/
def pBadTime : PatchPayload :=
  { title := none, description := Field.absent, subject := Field.absent,
    level := Field.absent, specialization := Field.absent,
    startTime := some 3000, endTime := none, location := Field.absent,
    onlineUrl := Field.absent }

/-- A scorer candidate with 2 attendees. -/
def recA : RecMeeting :=
  { id := "r1", title := "Algo", subject := none, level := none,
    specialization := none, startTime := 100, attendeesCount := 2 }

/-- A scorer candidate with 7 attendees. -/
def recB : RecMeeting :=
  { id := "r2", title := "Calc", subject := none, level := none,
    specialization := none, startTime := 200, attendeesCount := 7 }

/-! ## Theorems -/

/-- Any list is a `isPrefixOf`-witnessed front of itself followed by a tail. -/
theorem isPrefixOf_append_self (l t : List Char) : l.isPrefixOf (l ++ t) = true := by
  induction l with
  | nil => simp [List.isPrefixOf]
  | cons a as ih => simp [List.isPrefixOf, ih]

/-- C10: a request bearing `Authorization: Bearer <ADMIN_TOKEN>` (token set,
i.e. nonempty) authenticates as the synthetic admin actor regardless of any
session, that actor passes the owner-or-admin check on every meeting, and both
Patch and Delete by that actor on any existing meeting succeed with 200. -/
theorem admin_token_grants_admin (t : List Char) (session : Option Actor)
    (db : DB) (mid : String) (m : Meeting) (p : PatchPayload)
    (cleanup : Except CalErr Unit) (hT : t ≠ [])
    (hfind : findMeeting db mid = some m) :
    requireAuth (some t) (some (bearerPre ++ t)) session
        = Except.ok { id := "admin", role := "admin" }
      ∧ isOwnerOrAdmin { id := "admin", role := "admin" } m = true
      ∧ (patchMeeting { id := "admin", role := "admin" } mid p db).1.status = 200
      ∧ (deleteMeeting { id := "admin", role := "admin" } mid cleanup db).1.status
          = 200 := by
  have hadmin : isOwnerOrAdmin { id := "admin", role := "admin" } m = true := by
    simp [isOwnerOrAdmin]
  refine ⟨?_, hadmin, ?_, ?_⟩
  · have hpre := isPrefixOf_append_self bearerPre t
    have hdrop : (bearerPre ++ t).drop 7 = t := rfl
    simp [requireAuth, hpre, hdrop, List.isEmpty_iff, hT]
  · simp [patchMeeting, hfind, hadmin]
  · cases cleanup with
    | ok u => simp [deleteMeeting, hfind, hadmin]
    | error e => simp [deleteMeeting, hfind, hadmin]

/-- C10 witness at a concrete token, meeting and database. -/
theorem admin_token_grants_admin_witness :
    requireAuth (some ['s', 'e', 'c']) (some (bearerPre ++ ['s', 'e', 'c'])) none
        = Except.ok { id := "admin", role := "admin" }
      ∧ isOwnerOrAdmin { id := "admin", role := "admin" } mLive = true
      ∧ (patchMeeting { id := "admin", role := "admin" } "m2" emptyPatch
          dbTwo).1.status = 200
      ∧ (deleteMeeting { id := "admin", role := "admin" } "m2" (Except.ok ())
          dbTwo).1.status = 200 :=
  admin_token_grants_admin ['s', 'e', 'c'] none dbTwo "m2" mLive emptyPatch
    (Except.ok ()) (by decide) (by decide)

/-- C3: every meeting List returns has `endTime` strictly after the query
time `now` — so an ended meeting is never returned, whatever the filters —
and the returned list is sorted by ascending `startTime`. -/
theorem list_hides_ended_and_sorted (now : Int) (f : ListFilters) (db : DB)
    (m : Meeting) (hm : m ∈ listMeetings now f db) :
    now < m.endTime ∧ List.Sorted startLE (listMeetings now f db) := by
  constructor
  · have hm2 : m ∈ db.meetings.filter (matchesWhere now f) := by
      simpa [listMeetings] using hm
    have := List.of_mem_filter hm2
    simp only [matchesWhere, Bool.and_eq_true, decide_eq_true_eq] at this
    exact this.1.1.1.1.1.1
  · exact List.sorted_insertionSort startLE _

/-- C3 witness: a database holding an ended and an upcoming meeting; the
upcoming one is returned and the conclusion comes from the theorem. -/
theorem list_hides_ended_and_sorted_witness :
    mLive ∈ listMeetings 10 noFilters dbTwo
      ∧ ((10 : Int) < mLive.endTime
          ∧ List.Sorted startLE (listMeetings 10 noFilters dbTwo)) := by
  have hmem : mLive ∈ listMeetings 10 noFilters dbTwo := by decide
  exact ⟨hmem, list_hides_ended_and_sorted 10 noFilters dbTwo mLive hmem⟩

/-- C5: joining a meeting whose `endTime` is at or before `now` is rejected
with the 400 "already ended" outcome and the database is unchanged (no
attendee row is created); joining an id that does not resolve yields 404. -/
theorem join_rejects_ended (now : Int) (attId : String) (actor : Actor)
    (id : String) (db : DB) (m : Meeting) :
    (findMeeting db id = some m → m.endTime ≤ now →
        joinMeeting now attId actor id db = (JoinRes.ended, db)
          ∧ JoinRes.ended.status = 400)
      ∧ (findMeeting db id = none →
          joinMeeting now attId actor id db = (JoinRes.notFound, db)
            ∧ JoinRes.notFound.status = 404) := by
  constructor
  · intro hfind hend
    exact ⟨by simp [joinMeeting, hfind, hend], rfl⟩
  · intro hfind
    exact ⟨by simp [joinMeeting, hfind], rfl⟩

/-- C5 witness: at time 10, joining the ended meeting m1 gives the 400
outcome with no state change, and joining a missing id gives 404. -/
theorem join_rejects_ended_witness :
    (joinMeeting 10 "a1" { id := "u2", role := "user" } "m1" dbTwo
        = (JoinRes.ended, dbTwo)
      ∧ JoinRes.ended.status = 400)
      ∧ (joinMeeting 10 "a1" { id := "u2", role := "user" } "zz" dbTwo
          = (JoinRes.notFound, dbTwo)
        ∧ JoinRes.notFound.status = 404) :=
  ⟨(join_rejects_ended 10 "a1" { id := "u2", role := "user" } "m1" dbTwo
      mEnded).1 (by decide) (by decide),
   (join_rejects_ended 10 "a1" { id := "u2", role := "user" } "zz" dbTwo
      mEnded).2 (by decide)⟩

/-- C9: a Patch by an authenticated actor who is neither the creator nor an
admin answers 403 with no body and leaves the whole database — in
particular the stored meeting — unchanged. -/
theorem patch_forbidden_frame (actor : Actor) (id : String) (p : PatchPayload)
    (db : DB) (m : Meeting) (hfind : findMeeting db id = some m)
    (hown : m.createdById ≠ actor.id) (hrole : actor.role ≠ "admin") :
    (patchMeeting actor id p db).1 = ⟨403, none⟩
      ∧ (patchMeeting actor id p db).2 = db := by
  have hoa : isOwnerOrAdmin actor m = false := by
    simp [isOwnerOrAdmin, hown, hrole]
  constructor <;> simp [patchMeeting, hfind, hoa]

/-- C9 witness: user u2 patching u1's meeting m2 is rejected with 403 and
the database is untouched. -/
theorem patch_forbidden_frame_witness :
    (patchMeeting { id := "u2", role := "user" } "m2" emptyPatch dbTwo).1
        = ⟨403, none⟩
      ∧ (patchMeeting { id := "u2", role := "user" } "m2" emptyPatch dbTwo).2
        = dbTwo :=
  patch_forbidden_frame { id := "u2", role := "user" } "m2" emptyPatch dbTwo
    mLive (by decide) (by decide) (by decide)

/-- C1: Delete by an owner-or-admin actor answers 200 for every outcome of
the calendar-cleanup step, including a thrown one; the local transaction
removes the meeting row and every attendee row of the meeting together in
the one resulting state; the resulting state does not depend on the cleanup
outcome; and `deleteGoogleEventWithFallback` itself never propagates an
error. -/
theorem delete_cleanup_never_blocks (actor : Actor) (id : String)
    (cleanup : Except CalErr Unit) (db : DB) (m : Meeting)
    (hfind : findMeeting db id = some m)
    (hauth : m.createdById = actor.id ∨ actor.role = "admin") :
    (deleteMeeting actor id cleanup db).1.status = 200
      ∧ (deleteMeeting actor id cleanup db).2.meetings
          = db.meetings.filter (fun x => x.id ≠ id)
      ∧ (deleteMeeting actor id cleanup db).2.attendees
          = db.attendees.filter (fun a => a.meetingId ≠ id)
      ∧ (∀ mm ∈ (deleteMeeting actor id cleanup db).2.meetings, mm.id ≠ id)
      ∧ (∀ a ∈ (deleteMeeting actor id cleanup db).2.attendees, a.meetingId ≠ id)
      ∧ (∀ other : Except CalErr Unit,
          deleteMeeting actor id other db = deleteMeeting actor id cleanup db)
      ∧ (∀ (hasTok : Bool) (gid : Option String) (att1 att2 : Except CalErr Unit),
          deleteGoogleEventWithFallback hasTok gid att1 att2 = Except.ok ()) := by
  have hoa : isOwnerOrAdmin actor m = true := by
    rcases hauth with h | h <;> simp [isOwnerOrAdmin, h]
  have hrun : deleteMeeting actor id cleanup db
      = (⟨200⟩,
         { meetings := db.meetings.filter (fun x => x.id ≠ id)
           attendees := db.attendees.filter (fun a => a.meetingId ≠ id) }) := by
    cases cleanup with
    | ok u => simp [deleteMeeting, hfind, hoa]
    | error e => simp [deleteMeeting, hfind, hoa]
  refine ⟨by simp [hrun], by simp [hrun], by simp [hrun], ?_, ?_, ?_, ?_⟩
  · intro mm hmm
    rw [hrun] at hmm
    simpa using (List.of_mem_filter hmm)
  · intro a ha
    rw [hrun] at ha
    simpa using (List.of_mem_filter ha)
  · intro other
    have hrun2 : deleteMeeting actor id other db
        = (⟨200⟩,
           { meetings := db.meetings.filter (fun x => x.id ≠ id)
             attendees := db.attendees.filter (fun a => a.meetingId ≠ id) }) := by
      cases other with
      | ok u => simp [deleteMeeting, hfind, hoa]
      | error e => simp [deleteMeeting, hfind, hoa]
    rw [hrun2, hrun]
  · intro hasTok gid att1 att2
    cases hasTok <;> cases gid <;>
      simp [deleteGoogleEventWithFallback] <;>
      cases att1 <;> cases att2 <;> simp [deleteGoogleEvent] <;> split <;> rfl

/-- C1 witness: the owner deletes m2 while the calendar cleanup throws; the
call still answers 200 and removes the meeting and its attendee rows. -/
theorem delete_cleanup_never_blocks_witness :
    (deleteMeeting { id := "u1", role := "user" } "m2"
        (Except.error { code := none }) dbTwo).1.status = 200
      ∧ (deleteMeeting { id := "u1", role := "user" } "m2"
          (Except.error { code := none }) dbTwo).2.meetings
        = dbTwo.meetings.filter (fun x => x.id ≠ "m2")
      ∧ (deleteMeeting { id := "u1", role := "user" } "m2"
          (Except.error { code := none }) dbTwo).2.attendees
        = dbTwo.attendees.filter (fun a => a.meetingId ≠ "m2") := by
  have h := delete_cleanup_never_blocks { id := "u1", role := "user" } "m2"
    (Except.error { code := none }) dbTwo mLive (by decide) (Or.inl (by decide))
  exact ⟨h.1, h.2.1, h.2.2.1⟩

/-- C4: on a meeting that has not ended at either call, joining twice in
sequence leaves exactly one attendee row for the (meeting, user) pair —
assuming the state respects the unique index, i.e. at most one such row
before the calls — and the second call answers the 200 success-with-note
"already joined" outcome, not an error. -/
theorem join_twice_one_record (now1 now2 : Int) (attId1 attId2 : String)
    (actor : Actor) (id : String) (db : DB) (m : Meeting)
    (hfind : findMeeting db id = some m) (h1 : now1 < m.endTime)
    (h2 : now2 < m.endTime) (hcount : countPair db id actor.id ≤ 1) :
    countPair (joinMeeting now2 attId2 actor id
        (joinMeeting now1 attId1 actor id db).2).2 id actor.id = 1
      ∧ (joinMeeting now2 attId2 actor id
          (joinMeeting now1 attId1 actor id db).2).1 = JoinRes.alreadyJoined
      ∧ JoinRes.alreadyJoined.status = 200 := by
  have hend1 : ¬ (m.endTime ≤ now1) := not_le.mpr h1
  have hend2 : ¬ (m.endTime ≤ now2) := not_le.mpr h2
  by_cases h0 : db.attendees.any
      (fun a => a.meetingId = id && a.userId = actor.id) = true
  · have hr1 : joinMeeting now1 attId1 actor id db = (JoinRes.alreadyJoined, db) := by
      simp [joinMeeting, hfind, hend1, h0]
    have hr2 : joinMeeting now2 attId2 actor id db = (JoinRes.alreadyJoined, db) := by
      simp [joinMeeting, hfind, hend2, h0]
    have hpos : 1 ≤ countPair db id actor.id := by
      rcases List.any_eq_true.mp h0 with ⟨a, ha, hpa⟩
      have hmem : a ∈ db.attendees.filter
          (fun a => a.meetingId = id && a.userId = actor.id) :=
        List.mem_filter.mpr ⟨ha, hpa⟩
      have := List.length_pos.mpr (List.ne_nil_of_mem hmem)
      simpa [countPair] using this
    rw [hr1, hr2]
    exact ⟨le_antisymm hcount hpos, rfl, rfl⟩
  · have h0f : db.attendees.any
        (fun a => a.meetingId = id && a.userId = actor.id) = false := by
      simpa using h0
    have hfilz : db.attendees.filter
        (fun a => a.meetingId = id && a.userId = actor.id) = [] := by
      rw [List.filter_eq_nil_iff]
      intro a ha
      have := (List.any_eq_false).mp h0f a ha
      simpa using this
    have hr1 : joinMeeting now1 attId1 actor id db
        = (JoinRes.joined ⟨attId1, id, actor.id, "going"⟩,
           { db with attendees :=
               db.attendees ++ [⟨attId1, id, actor.id, "going"⟩] }) := by
      simp [joinMeeting, hfind, hend1, h0f]
    have hfind1 : findMeeting
        { db with attendees :=
            db.attendees ++ [(⟨attId1, id, actor.id, "going"⟩ : Attendee)] } id
        = some m := hfind
    have h1any : (db.attendees ++
        [(⟨attId1, id, actor.id, "going"⟩ : Attendee)]).any
          (fun a => a.meetingId = id && a.userId = actor.id) = true := by
      simp
    have hr2 : joinMeeting now2 attId2 actor id
        { db with attendees :=
            db.attendees ++ [(⟨attId1, id, actor.id, "going"⟩ : Attendee)] }
        = (JoinRes.alreadyJoined,
           { db with attendees :=
               db.attendees ++ [⟨attId1, id, actor.id, "going"⟩] }) := by
      simp [joinMeeting, hfind1, hend2, h1any]
    rw [hr1, hr2]
    refine ⟨?_, rfl, rfl⟩
    simp [countPair, List.filter_append, hfilz]

/-- C4 witness: user u2 joins the live meeting m2 twice on the empty
attendance table; one row remains and the second call says already joined. -/
theorem join_twice_one_record_witness :
    countPair (joinMeeting 11 "a2" { id := "u2", role := "user" } "m2"
        (joinMeeting 10 "a1" { id := "u2", role := "user" } "m2" dbTwo).2).2
        "m2" "u2" = 1
      ∧ (joinMeeting 11 "a2" { id := "u2", role := "user" } "m2"
          (joinMeeting 10 "a1" { id := "u2", role := "user" } "m2" dbTwo).2).1
        = JoinRes.alreadyJoined
      ∧ JoinRes.alreadyJoined.status = 200 :=
  join_twice_one_record 10 11 "a1" "a2" { id := "u2", role := "user" } "m2"
    dbTwo mLive (by decide) (by decide) (by decide) (by decide)

/-- `find?` of a fresh id over a table extended with a row carrying that id
lands on the new row. -/
theorem find_fresh_last (l : List Meeting) (gid : String) (m : Meeting)
    (h : ∀ x ∈ l, x.id ≠ gid) (hm : m.id = gid) :
    (l ++ [m]).find? (fun x => x.id = gid) = some m := by
  induction l with
  | nil => simp [List.find?, hm]
  | cons a as ih =>
      have ha : ¬ (a.id = gid) := h a (by simp)
      have ih2 := ih (fun x hx => h x (by simp [hx]))
      simpa [List.find?, ha] using ih2

/-- C2: Create answers 201 for every outcome of the calendar call —
a thrown error, no event id, or an event id — and the final state always
holds the creator as a "going" attendee of the new meeting; the response
body is the created meeting with the payload fields and the creator as
`createdById`. -/
theorem create_enrolls_creator (genId attId : String) (actor : Actor)
    (p : CreatePayload) (cal : Except CalErr (Option String)) (db : DB)
    (hfresh : ∀ x ∈ db.meetings, x.id ≠ genId) :
    (createMeeting genId attId actor p cal db).1.status = 201
      ∧ (∃ a ∈ (createMeeting genId attId actor p cal db).2.attendees,
          a.meetingId = genId ∧ a.userId = actor.id ∧ a.status = "going")
      ∧ (∃ mm, (createMeeting genId attId actor p cal db).1.body = some mm
          ∧ mm.id = genId ∧ mm.title = p.title ∧ mm.createdById = actor.id
          ∧ mm.startTime = p.startTime ∧ mm.endTime = p.endTime) := by
  refine ⟨?_, ?_, ?_⟩
  · cases cal with
    | ok v => cases v <;> rfl
    | error e => rfl
  · refine ⟨⟨attId, genId, actor.id, "going"⟩, ?_, rfl, rfl, rfl⟩
    cases cal with
    | ok v => cases v <;> simp [createMeeting]
    | error e => simp [createMeeting]
  · cases cal with
    | ok v =>
        cases v with
        | none =>
            refine ⟨newMeeting genId actor p, ?_, rfl, rfl, rfl, rfl, rfl⟩
            simpa [createMeeting, findMeeting] using
              find_fresh_last db.meetings genId (newMeeting genId actor p)
                hfresh rfl
        | some geid =>
            have hmap : ∀ x ∈ db.meetings.map (fun x =>
                if x.id = genId
                then { x with googleEventId := some geid } else x),
                x.id ≠ genId := by
              intro x hx
              rcases List.mem_map.mp hx with ⟨y, hy, hxy⟩
              have hyid := hfresh y hy
              subst hxy
              simp [hyid]
            refine ⟨{ newMeeting genId actor p with googleEventId := some geid },
              ?_, rfl, rfl, rfl, rfl, rfl⟩
            have := find_fresh_last (db.meetings.map (fun x =>
                if x.id = genId
                then { x with googleEventId := some geid } else x)) genId
                { newMeeting genId actor p with googleEventId := some geid }
                hmap rfl
            simpa [createMeeting, findMeeting, List.map_append, newMeeting]
              using this
    | error e =>
        refine ⟨newMeeting genId actor p, ?_, rfl, rfl, rfl, rfl, rfl⟩
        simpa [createMeeting, findMeeting] using
          find_fresh_last db.meetings genId (newMeeting genId actor p)
            hfresh rfl

/-- C2 witness: user u3 creates a meeting with a fresh id while the calendar
call throws; 201, the creator is enrolled going, and the body is the
created meeting. -/
theorem create_enrolls_creator_witness :
    (createMeeting "m9" "a9" { id := "u3", role := "user" } samplePayload
        (Except.error { code := none }) dbTwo).1.status = 201
      ∧ (∃ a ∈ (createMeeting "m9" "a9" { id := "u3", role := "user" }
            samplePayload (Except.error { code := none }) dbTwo).2.attendees,
          a.meetingId = "m9" ∧ a.userId = "u3" ∧ a.status = "going")
      ∧ (∃ mm, (createMeeting "m9" "a9" { id := "u3", role := "user" }
            samplePayload (Except.error { code := none }) dbTwo).1.body
          = some mm
          ∧ mm.id = "m9" ∧ mm.title = samplePayload.title
          ∧ mm.createdById = "u3"
          ∧ mm.startTime = samplePayload.startTime
          ∧ mm.endTime = samplePayload.endTime) :=
  create_enrolls_creator "m9" "a9" { id := "u3", role := "user" }
    samplePayload (Except.error { code := none }) dbTwo (by decide)

/-- C7: a Patch by an owner-or-admin actor on an existing meeting stores and
answers exactly the merge of the stored row with the present payload fields:
each present field overwrites — including an explicit null and the empty
string — each omitted field keeps its stored value, and id, createdById and
googleEventId are never touched. -/
theorem patch_overwrites_exactly_present (actor : Actor) (id : String)
    (p : PatchPayload) (db : DB) (m : Meeting)
    (hfind : findMeeting db id = some m)
    (hauth : m.createdById = actor.id ∨ actor.role = "admin") :
    (patchMeeting actor id p db).1 = ⟨200, some (applyPatch m p)⟩
      ∧ (patchMeeting actor id p db).2.meetings
          = db.meetings.map (fun x => if x.id = id then applyPatch m p else x)
      ∧ (∀ t, p.title = some t → (applyPatch m p).title = t)
      ∧ (p.title = none → (applyPatch m p).title = m.title)
      ∧ (∀ v, p.description = Field.present v → (applyPatch m p).description = v)
      ∧ (p.description = Field.absent →
          (applyPatch m p).description = m.description)
      ∧ (∀ v, p.subject = Field.present v → (applyPatch m p).subject = v)
      ∧ (p.subject = Field.absent → (applyPatch m p).subject = m.subject)
      ∧ (∀ v, p.level = Field.present v → (applyPatch m p).level = v)
      ∧ (p.level = Field.absent → (applyPatch m p).level = m.level)
      ∧ (∀ v, p.specialization = Field.present v →
          (applyPatch m p).specialization = v)
      ∧ (p.specialization = Field.absent →
          (applyPatch m p).specialization = m.specialization)
      ∧ (∀ s, p.startTime = some s → (applyPatch m p).startTime = s)
      ∧ (p.startTime = none → (applyPatch m p).startTime = m.startTime)
      ∧ (∀ e, p.endTime = some e → (applyPatch m p).endTime = e)
      ∧ (p.endTime = none → (applyPatch m p).endTime = m.endTime)
      ∧ (∀ v, p.location = Field.present v → (applyPatch m p).location = v)
      ∧ (p.location = Field.absent → (applyPatch m p).location = m.location)
      ∧ (∀ v, p.onlineUrl = Field.present v → (applyPatch m p).onlineUrl = v)
      ∧ (p.onlineUrl = Field.absent → (applyPatch m p).onlineUrl = m.onlineUrl)
      ∧ (applyPatch m p).id = m.id
      ∧ (applyPatch m p).createdById = m.createdById
      ∧ (applyPatch m p).googleEventId = m.googleEventId := by
  have hoa : isOwnerOrAdmin actor m = true := by
    rcases hauth with h | h <;> simp [isOwnerOrAdmin, h]
  refine ⟨by simp [patchMeeting, hfind, hoa], by simp [patchMeeting, hfind, hoa],
    fun t ht => by simp [applyPatch, ht],
    fun ht => by simp [applyPatch, ht],
    fun v hv => by simp [applyPatch, hv],
    fun hv => by simp [applyPatch, hv],
    fun v hv => by simp [applyPatch, hv],
    fun hv => by simp [applyPatch, hv],
    fun v hv => by simp [applyPatch, hv],
    fun hv => by simp [applyPatch, hv],
    fun v hv => by simp [applyPatch, hv],
    fun hv => by simp [applyPatch, hv],
    fun s hs2 => by simp [applyPatch, hs2],
    fun hs2 => by simp [applyPatch, hs2],
    fun e he => by simp [applyPatch, he],
    fun he => by simp [applyPatch, he],
    fun v hv => by simp [applyPatch, hv],
    fun hv => by simp [applyPatch, hv],
    fun v hv => by simp [applyPatch, hv],
    fun hv => by simp [applyPatch, hv],
    rfl, rfl, rfl⟩

/-- C7 witness: owner u1 patches m2 with a payload holding a new title, an
explicit null description, an empty-string subject and no endTime; the
stored row overwrites exactly those and keeps endTime. -/
theorem patch_overwrites_exactly_present_witness :
    (patchMeeting { id := "u1", role := "user" } "m2" pOverwrite dbTwo).1
        = ⟨200, some (applyPatch mLive pOverwrite)⟩
      ∧ (applyPatch mLive pOverwrite).description = none
      ∧ (applyPatch mLive pOverwrite).subject = some ""
      ∧ (applyPatch mLive pOverwrite).endTime = mLive.endTime := by
  have h := patch_overwrites_exactly_present { id := "u1", role := "user" }
    "m2" pOverwrite dbTwo mLive (by decide) (Or.inl (by decide))
  obtain ⟨ha, hb, hc, hd, he, hf, hg, hh, hi, hj, hk, hl, hm2, hn, ho, hp,
    hq, hr, hs2, ht2, hu, hv, hw⟩ := h
  exact ⟨ha, he none rfl, hg (some "") rfl, hp rfl⟩

/-- C6: the `startTime < endTime` invariant is NOT preserved by Patch: the
schema refinement compares the two times only when both appear in the
payload, so moving only `startTime` past the stored `endTime` passes
validation, is applied, and stores a meeting with `startTime ≥ endTime`. -/
theorem patch_breaks_time_invariant :
    validPatch pBadTime = true
      ∧ mLive.startTime < mLive.endTime
      ∧ (patchMeeting { id := "u1", role := "user" } "m2" pBadTime
          dbTwo).1.status = 200
      ∧ findMeeting (patchMeeting { id := "u1", role := "user" } "m2" pBadTime
          dbTwo).2 "m2" = some (applyPatch mLive pBadTime)
      ∧ ¬ ((applyPatch mLive pBadTime).startTime
            < (applyPatch mLive pBadTime).endTime) := by
  refine ⟨rfl, by decide, rfl, by decide, by decide⟩

/-- C8 counterexample: a user with history (3 joined) and two candidates;
the collaborator answers text with no JSON array segment — a malformed
response — and the result is the empty list, not the nonempty popularity
ranking the claim requires. -/
theorem recommend_malformed_empty_counterexample :
    getRecommendations (some "k") (some { totalMeetingsJoined := 3 })
        [recA, recB] AiOutcome.noJsonArray = []
      ∧ getRecommendations (some "k") (some { totalMeetingsJoined := 3 })
          [recA, recB] AiOutcome.noJsonArray
        ≠ popularityTop [recA, recB] "Popular session"
      ∧ popularityTop [recA, recB] "Popular session" ≠ [] := by
  refine ⟨rfl, by decide, by decide⟩

/-- C8 amended: with nonempty history and a nonempty candidate set, a
collaborator call that throws — unreachable service or a JSON-parse failure
— falls back to the popularity ranking: at most 5 entries, descending
attendee count, each with the fixed score 50 and the generic reason; but a
response whose text holds no JSON array segment yields the empty list
instead. -/
theorem recommend_fallback_on_throw (key : String) (prof : Profile)
    (available : List RecMeeting) (hhist : prof.totalMeetingsJoined ≠ 0)
    (hne : available ≠ []) :
    getRecommendations (some key) (some prof) available AiOutcome.throws
        = popularityTop available "Popular session"
      ∧ (popularityTop available "Popular session").length ≤ 5
      ∧ (∀ r ∈ popularityTop available "Popular session",
          r.score = 50 ∧ r.reason = "Popular session")
      ∧ (popularityTop available "Popular session").Pairwise
          (fun x y => popGE x.meeting y.meeting)
      ∧ getRecommendations (some key) (some prof) available AiOutcome.noJsonArray
        = [] := by
  have hemp : available.isEmpty = false := by
    simpa [List.isEmpty_iff] using hne
  refine ⟨by simp [getRecommendations, hemp, hhist], ?_, ?_, ?_, ?_⟩
  · simp [popularityTop]
  · intro r hr
    rcases List.mem_map.mp hr with ⟨mm, hmm, hr2⟩
    subst hr2
    exact ⟨rfl, rfl⟩
  · have hsorted : (List.insertionSort popGE available).Pairwise popGE :=
      List.sorted_insertionSort popGE available
    have htake : ((List.insertionSort popGE available).take 5).Pairwise popGE :=
      List.Pairwise.sublist (List.take_sublist 5 _) hsorted
    exact List.pairwise_map.mpr htake
  · simp [getRecommendations, hemp, hhist]

/-- C8 amended witness: at the concrete two-candidate set, the throwing
collaborator produces the popularity ranking and the array-less response
produces the empty list. -/
theorem recommend_fallback_on_throw_witness :
    getRecommendations (some "k") (some { totalMeetingsJoined := 3 })
        [recA, recB] AiOutcome.throws
        = popularityTop [recA, recB] "Popular session"
      ∧ getRecommendations (some "k") (some { totalMeetingsJoined := 3 })
          [recA, recB] AiOutcome.noJsonArray = [] := by
  have h := recommend_fallback_on_throw "k" { totalMeetingsJoined := 3 }
    [recA, recB] (by decide) (by decide)
  exact ⟨h.1, h.2.2.2.2⟩

end StudyConnect
